import Mathlib

/-!
Verification of the comicsd download core against its specification.

The development shallowly embeds:
* the EPUB archive encoder (`internal/epub`, `EPUBWriter`),
* the page downloader's error paths (`internal/downloader`, `ComicsDL`),
* the MCP download pipeline (`mcp` package): task planner, bounded
  worker pool with an index-addressed result buffer, and the CBZ/EPUB
  append loops, plus the sequential CBZ variant,
* `workerCount` together with a model of Go's `strconv.Atoi`.

Go byte slices become `List Nat`; the zip archive becomes the ordered
list of entries written to it; collaborator calls (chapter resolution,
session opening, page fetching) become explicit oracle functions; a
concurrent execution of the worker pool is abstracted by the order in
which task completions write into the shared results buffer, an
arbitrary permutation of the task list.
-/

/-- Go `[]byte`: a sequence of bytes. -/
abbrev ByteSeq := List Nat

/-- Compression method of a zip entry (Go `archive/zip`): `Store`
(uncompressed) or `Deflate`. -/
inductive ZipMethod where
  | store
  | deflate
deriving DecidableEq, Repr

/-- Payload of a zip entry: raw image bytes, or a text document
(Go writes `[]byte(content)` of a string). -/
inductive EntryData where
  | bin (b : ByteSeq)
  | txt (s : String)
deriving DecidableEq, Repr

/-- One entry of a zip archive, in write order. -/
structure ZipEntry where
  name : String
  data : EntryData
  method : ZipMethod
deriving DecidableEq, Repr

/-- Go's `zip.Writer.Create(name)` followed by a write of the payload.
`Create` always compresses the entry with the Deflate method (the Go
standard library documents: "The file contents will be compressed using
the Deflate method"); the source never calls `CreateHeader` with
`zip.Store`. -/
def zipCreate (name : String) (d : EntryData) : ZipEntry :=
  { name := name, data := d, method := ZipMethod.deflate }

/-! ## EPUB encoder (`internal/epub/epub.go`) -/

/-- State of `epub.EPUBWriter`: the entries already streamed to the
underlying zip writer, plus the accumulated `pages`, `images`, `title`
and `pageCount` fields. -/
structure EPUBWriter where
  entries : List ZipEntry
  pages : List String
  images : List String
  title : String
  pageCount : Nat
deriving Repr

/-- Model of `epub.NewEPUBWriter`. -/
def NewEPUBWriter (title : String) : EPUBWriter :=
  { entries := [], pages := [], images := [], title := title, pageCount := 0 }

/-- The XHTML wrapper document `AddPage` generates for page `pageNum`
showing image `filename` (the Go format string with `%d`/`%s` filled
in; `%%` renders as a literal percent sign). -/
def xhtmlPage (pageNum : Nat) (filename : String) : String :=
  s!"<?xml version=\"1.0\" encoding=\"UTF-8\"?>
<!DOCTYPE html>
<html xmlns=\"http://www.w3.org/1999/xhtml\">
<head>
    <title>Page {pageNum}</title>
    <style type=\"text/css\">
        html, body \x7b
            margin: 0;
            padding: 0;
            height: 100%;
            width: 100%;
            overflow: hidden;
        \x7d
        .page-container \x7b
            display: flex;
            justify-content: center;
            align-items: center;
            height: 100vh;
            width: 100vw;
            background-color: #ffffff;
        \x7d
        .page-image \x7b
            max-width: 100%;
            max-height: 100%;
            width: auto;
            height: auto;
            object-fit: contain;
            display: block;
        \x7d
        /* Fallback for older e-readers */
        body \x7b
            text-align: center;
            margin: 0;
            padding: 0;
        \x7d
        img \x7b
            max-width: 100%;
            max-height: 100%;
            width: auto;
            height: auto;
        \x7d
    </style>
</head>
<body>
    <div class=\"page-container\">
        <img class=\"page-image\" src=\"images/{filename}\" alt=\"Page {pageNum}\"/>
    </div>
</body>
</html>"

/-- Model of `EPUBWriter.AddPage(filename, data)`: streams the image entry and
the XHTML wrapper entry to the zip writer, then records the page.
Zip write failures are outside the model, so the Go error return has no
failing case here. -/
def EPUBWriter.AddPage (e : EPUBWriter) (filename : String) (data : ByteSeq) : EPUBWriter :=
  let pageNum := e.pageCount + 1
  { e with
    entries := e.entries
      ++ [zipCreate s!"OEBPS/images/{filename}" (EntryData.bin data),
          zipCreate s!"OEBPS/page{pageNum}.xhtml" (EntryData.txt (xhtmlPage pageNum filename))],
    pages := e.pages ++ [s!"page{pageNum}.xhtml"],
    images := e.images ++ [filename],
    pageCount := e.pageCount + 1 }

/-- Content of the `mimetype` entry written by `writeMimeType`. -/
def mimetypeContent : String := "application/epub+zip"

/-- Content of `META-INF/container.xml` written by `writeContainer`. -/
def containerXML : String :=
  "<?xml version=\"1.0\" encoding=\"UTF-8\"?>
<container version=\"1.0\" xmlns=\"urn:oasis:names:tc:opendocument:xmlns:container\">
    <rootfiles>
        <rootfile full-path=\"OEBPS/content.opf\" media-type=\"application/oebps-package+xml\"/>
    </rootfiles>
</container>"

/-- The manifest `<item>` line `writeOPF` emits for the XHTML page at
(0-based) position `i`. -/
def manifestPageItem (i : Nat) (page : String) : String :=
  s!"        <item id=\"page{i + 1}\" href=\"{page}\" media-type=\"application/xhtml+xml\"/>\n"

/-- The manifest `<item>` line `writeOPF` emits for the image at
(0-based) position `i`: the `media-type` is the literal `image/jpeg`
in the Go format string, whatever the filename. -/
def manifestImageItem (i : Nat) (image : String) : String :=
  s!"        <item id=\"img{i + 1}\" href=\"images/{image}\" media-type=\"image/jpeg\"/>\n"

/-- The spine `<itemref>` line for position `i`. -/
def spineItem (i : Nat) : String :=
  s!"        <itemref idref=\"page{i + 1}\"/>\n"

/-- The accumulated manifest lines of `writeOPF`: the loop runs over
`e.pages` with index `i`, reading `e.images[i]` alongside (modelled by
zipping the two lists, which coincide in length along every reachable
writer state). -/
def manifestItems (pages images : List String) : String :=
  String.join ((pages.zip images).enum.map fun (i, pg) => manifestPageItem i pg.1 ++ manifestImageItem i pg.2)

/-- The accumulated spine lines of `writeOPF`. -/
def spineItems (pages : List String) : String :=
  String.join ((List.range pages.length).map spineItem)

/-- Content of `OEBPS/content.opf` written by `writeOPF`; `today`
stands for `time.Now().Format("2006-01-02")`. -/
def contentOPF (title today : String) (pages images : List String) : String :=
  s!"<?xml version=\"1.0\" encoding=\"UTF-8\"?>
<package version=\"2.0\" xmlns=\"http://www.idpf.org/2007/opf\" unique-identifier=\"book-id\">
    <metadata xmlns:dc=\"http://purl.org/dc/elements/1.1/\" xmlns:opf=\"http://www.idpf.org/2007/opf\">
        <dc:title>{title}</dc:title>
        <dc:language>en</dc:language>
        <dc:identifier id=\"book-id\">{title}</dc:identifier>
        <dc:creator>Comic Downloader</dc:creator>
        <dc:date>{today}</dc:date>
        <meta name=\"cover\" content=\"img1\"/>
    </metadata>
    <manifest>
        <item id=\"ncx\" href=\"toc.ncx\" media-type=\"application/x-dtbncx+xml\"/>
{manifestItems pages images}    </manifest>
    <spine toc=\"ncx\">
{spineItems pages}    </spine>
</package>"

/-- The `<navPoint>` block `writeNCX` emits with 1-based number `n`
(used for the id, the `playOrder` attribute and the label) pointing at
wrapper document `src`. -/
def navPointString (n : Nat) (src : String) : String :=
  s!"        <navPoint id=\"page{n}\" playOrder=\"{n}\">
            <navLabel>
                <text>Page {n}</text>
            </navLabel>
            <content src=\"{src}\"/>
        </navPoint>\n"

/-- The accumulated `navMap` body of `writeNCX`: one `navPoint` per
element of `e.pages`, numbered from 1 in list order. -/
def navPoints (pages : List String) : String :=
  String.join (pages.enum.map fun ip => navPointString (ip.1 + 1) ip.2)

/-- Content of `OEBPS/toc.ncx` written by `writeNCX`. -/
def ncxContent (title : String) (pageCount : Nat) (pages : List String) : String :=
  s!"<?xml version=\"1.0\" encoding=\"UTF-8\"?>
<ncx version=\"2005-1\" xmlns=\"http://www.daisy.org/z3986/2005/ncx/\">
    <head>
        <meta name=\"dtb:uid\" content=\"{title}\"/>
        <meta name=\"dtb:depth\" content=\"1\"/>
        <meta name=\"dtb:totalPageCount\" content=\"{pageCount}\"/>
        <meta name=\"dtb:maxPageNumber\" content=\"{pageCount}\"/>
    </head>
    <docTitle>
        <text>{title}</text>
    </docTitle>
    <navMap>
{navPoints pages}    </navMap>
</ncx>"

/-- Model of `EPUBWriter.Close()`: appends, in this order, the `mimetype`,
container, package-document and navigation entries to whatever entries
were already streamed by earlier `AddPage` calls, then closes the zip
writer. Returns the full entry list of the finalized archive. -/
def EPUBWriter.Close (e : EPUBWriter) (today : String) : List ZipEntry :=
  e.entries
    ++ [zipCreate "mimetype" (EntryData.txt mimetypeContent),
        zipCreate "META-INF/container.xml" (EntryData.txt containerXML),
        zipCreate "OEBPS/content.opf" (EntryData.txt (contentOPF e.title today e.pages e.images)),
        zipCreate "OEBPS/toc.ncx" (EntryData.txt (ncxContent e.title e.pageCount e.pages))]


/-! ## Page downloader error paths (`internal/downloader/dl.go`)

`ComicsDL.urlMap` is the map from request URL (and its path-unescaped
form) to the recorded network request id, built by the event listener;
we model it as an association list.  `url.PathUnescape` becomes an
oracle returning `none` on a malformed escape.  `network.GetResponseBody`
becomes an oracle from request id to bytes. -/

/-- Model of `ComicsDL.findRequestID(src)`: direct lookup, then a lookup of the
path-unescaped URL, then the error `"no such url: " + src`. -/
def findRequestID (urlMap : List (String × String)) (unescape : String → Option String)
    (src : String) : Except String String :=
  match urlMap.lookup src with
  | some v => Except.ok v
  | none =>
    match unescape src with
    | some unEscaped =>
      match urlMap.lookup unEscaped with
      | some v => Except.ok v
      | none => Except.error ("no such url: " ++ src)
    | none => Except.error ("no such url: " ++ src)

/-- The decision taken by the `ActionFunc` inside
`ComicsDL.DownloadPageTo` once the page has been navigated to:
`srcAttr` is the `src` attribute of `#mangaFile` (`none` when the
attribute is absent, i.e. the Go flag `b` is false), `getBody` is
`network.GetResponseBody`.  On success the fetched bytes are the data
written to the caller's `bytes.Buffer`. -/
def DownloadPageTo (urlMap : List (String × String)) (unescape : String → Option String)
    (getBody : String → Except String ByteSeq) (srcAttr : Option String) :
    Except String ByteSeq :=
  match srcAttr with
  | none => Except.error "no such image"
  | some src =>
    match findRequestID urlMap unescape src with
    | Except.ok v => getBody v
    | Except.error e => Except.error e

/-! ## `workerCount` and Go's `strconv.Atoi` (`mcp` package) -/

/-- Numeric value of an ASCII decimal digit. -/
def digitVal (c : Char) : Option Nat :=
  if '0' ≤ c ∧ c ≤ '9' then some (c.toNat - '0'.toNat) else none

/-- Digits-only part of `strconv.ParseInt`: `none` unless the character
list is nonempty and all characters are decimal digits. -/
def parseDigits : List Char → Option Nat
  | [] => none
  | [c] => digitVal c
  | c :: cs =>
    match digitVal c, parseDigits cs with
    | some d, some n => some (d * 10 ^ cs.length + n)
    | _, _ => none

/-- Go `strconv.Atoi` on a 64-bit platform: optional sign, decimal
digits, and a range check against `int64`; every error return of the Go
function (empty string, stray characters, out of range) is `none`. -/
def atoi (s : String) : Option Int :=
  match s.data with
  | [] => none
  | c :: rest =>
    let signed : Bool × List Char :=
      if c = '+' then (false, rest)
      else if c = '-' then (true, rest)
      else (false, c :: rest)
    match parseDigits signed.2 with
    | none => none
    | some n =>
      if signed.1 then
        if n ≤ 2 ^ 63 then some (-(n : Int)) else none
      else
        if n ≤ 2 ^ 63 - 1 then some (n : Int) else none

/-- Model of `workerCount()`: `env` is `os.Getenv("COMICSD_WORKERS")` (the empty
string when the variable is unset). -/
def workerCount (env : String) : Int :=
  if env ≠ "" then
    match atoi env with
    | some n => if n > 0 then n else 4
    | none => 4
  else 4

/-! ## Download pipeline (`mcp` package, concurrent version)

`downloadToCBZ`/`downloadToEPUB` plan tasks, run the worker pool, and
append the results in index order.  Collaborators are oracles:
`openChapter` models `downloader.NewDownload` during planning (its
`Pages` field on success), `openSession` models the per-worker
`downloader.NewDownload` call, `fetchPage` models
`ComicsDL.DownloadPageTo` into a fresh buffer.  A concurrent run is
abstracted by `order`, the sequence in which task completions write the
shared `results` buffer — any permutation of the planned task list. -/

/-- Model of `pageTask`: one unit of work; `index` is the slot in the results
buffer and the final archive position. -/
structure PageTask where
  chapterID : String
  pageID : String
  index : Nat
deriving DecidableEq, Repr

/-- The inner planning loop: `for _, p := range cc.Pages: tasks =
append(tasks, pageTask{chapterID, p, len(tasks)})`. -/
def appendPageTasks (chapterID : String) : List String → List PageTask → List PageTask
  | [], tasks => tasks
  | p :: ps, tasks =>
    appendPageTasks chapterID ps
      (tasks ++ [{ chapterID := chapterID, pageID := p, index := tasks.length }])

/-- The planning loop over chapters: resolves each chapter via
`openChapter` and flattens its pages; the first resolution error aborts
the whole plan. -/
def planTasksGo (openChapter : String → Except String (List String)) :
    List String → List PageTask → Except String (List PageTask)
  | [], tasks => Except.ok tasks
  | c :: cs, tasks =>
    match openChapter c with
    | Except.error e => Except.error e
    | Except.ok pages => planTasksGo openChapter cs (appendPageTasks c pages tasks)

/-- The task-planning phase of `downloadToCBZ`/`downloadToEPUB`. -/
def planTasks (openChapter : String → Except String (List String))
    (chapterIDs : List String) : Except String (List PageTask) :=
  planTasksGo openChapter chapterIDs []

/-- One worker's handling of one task: lazily open (or reuse) the
chapter session, then fetch the page bytes.  With deterministic oracles
the worker-local session cache is observationally absent. -/
def taskAttempt (openSession : String → Except String Unit)
    (fetchPage : String → String → Except String ByteSeq) (t : PageTask) :
    Except String ByteSeq :=
  match openSession t.chapterID with
  | Except.error e => Except.error e
  | Except.ok _ => fetchPage t.chapterID t.pageID

/-- The pool's effect on the results buffer, processing completions in
the given order: a successful task writes its bytes at slot `t.index`;
the first error is captured (the 1-buffered `errCh` with a
`select`/`default` drop keeps only the first) and the buffer is
discarded — `wg.Wait` then surfaces that single error. -/
def runPoolGo (attempt : PageTask → Except String ByteSeq) :
    List PageTask → List (Option ByteSeq) → Except String (List (Option ByteSeq))
  | [], results => Except.ok results
  | t :: ts, results =>
    match attempt t with
    | Except.error e => Except.error e
    | Except.ok d => runPoolGo attempt ts (results.set t.index (some d))

/-- The worker-pool phase: a pre-sized buffer of `total` empty slots
(`make([][]byte, total)`) filled by completions in `order`. -/
def runPool (attempt : PageTask → Except String ByteSeq) (order : List PageTask)
    (total : Nat) : Except String (List (Option ByteSeq)) :=
  runPoolGo attempt order (List.replicate total none)

/-- The CBZ append loop after the pool joins:
`for i, data := range results` creates entry `"{i}.jpg"` and writes
`data` (a never-written slot is Go `nil`, written as zero bytes). -/
def cbzAppendLoop (results : List (Option ByteSeq)) : List ZipEntry :=
  results.enum.map fun (i, d) => zipCreate (s!"{i}.jpg") (EntryData.bin (d.getD []))

/-- Model of `downloadToCBZ`: plan, early-return on an empty task list, run the
pool, then append in index order.  The second component is the entry
list of the output archive after the deferred `cbz.Close()` (which only
finalizes; it adds no entries). -/
def downloadToCBZ (openChapter : String → Except String (List String))
    (openSession : String → Except String Unit)
    (fetchPage : String → String → Except String ByteSeq)
    (chapterIDs : List String) (order : List PageTask) :
    Except String Unit × List ZipEntry :=
  match planTasks openChapter chapterIDs with
  | Except.error e => (Except.error e, [])
  | Except.ok tasks =>
    if tasks.length = 0 then (Except.ok (), [])
    else
      match runPool (taskAttempt openSession fetchPage) order tasks.length with
      | Except.error e => (Except.error e, [])
      | Except.ok results => (Except.ok (), cbzAppendLoop results)

/-- The EPUB append loop after the pool joins:
`for i, data := range results` calls `AddPage("{i}.jpg", data)`. -/
def epubAppendLoop (w : EPUBWriter) (results : List (Option ByteSeq)) : EPUBWriter :=
  results.enum.foldl (fun w (p : Nat × Option ByteSeq) => w.AddPage s!"{p.1}.jpg" (p.2.getD [])) w

/-- Model of `downloadToEPUB`: like `downloadToCBZ` but appending to the EPUB
encoder.  The deferred `epubWriter.Close()` runs on every return path,
so even the error paths finalize the writer (writing its four
structural entries). -/
def downloadToEPUB (title today : String)
    (openChapter : String → Except String (List String))
    (openSession : String → Except String Unit)
    (fetchPage : String → String → Except String ByteSeq)
    (chapterIDs : List String) (order : List PageTask) :
    Except String Unit × List ZipEntry :=
  let w := NewEPUBWriter title
  match planTasks openChapter chapterIDs with
  | Except.error e => (Except.error e, w.Close today)
  | Except.ok tasks =>
    if tasks.length = 0 then (Except.ok (), w.Close today)
    else
      match runPool (taskAttempt openSession fetchPage) order tasks.length with
      | Except.error e => (Except.error e, w.Close today)
      | Except.ok results => (Except.ok (), (epubAppendLoop w results).Close today)

/-! ## Sequential CBZ variant (`downloadToCBZ` of the non-pooled `mcp`
source): each page's zip entry is created before its bytes are fetched,
so entries written before a failure remain in the archive. -/

/-- The inner page loop of the sequential variant for one chapter:
`cbz.Create("{page}.jpg")` then `DownloadPageTo` streaming into the
entry.  On a fetch failure the just-created entry remains with no bytes
written. -/
def cbzSeqPages (fetchPage : String → String → Except String ByteSeq) (chapterID : String) :
    List String → Nat → List ZipEntry → Except String Unit × Nat × List ZipEntry
  | [], page, acc => (Except.ok (), page, acc)
  | p :: ps, page, acc =>
    match fetchPage chapterID p with
    | Except.error e =>
      (Except.error e, page, acc ++ [zipCreate s!"{page}.jpg" (EntryData.bin [])])
    | Except.ok d =>
      cbzSeqPages fetchPage chapterID ps (page + 1) (acc ++ [zipCreate s!"{page}.jpg" (EntryData.bin d)])

/-- The chapter loop of the sequential variant, carrying the running
page counter and the entries written so far. -/
def downloadToCBZseqGo (openChapter : String → Except String (List String))
    (fetchPage : String → String → Except String ByteSeq) :
    List String → Nat → List ZipEntry → Except String Unit × List ZipEntry
  | [], _, acc => (Except.ok (), acc)
  | c :: cs, page, acc =>
    match openChapter c with
    | Except.error e => (Except.error e, acc)
    | Except.ok pages =>
      match cbzSeqPages fetchPage c pages page acc with
      | (Except.error e, _, acc1) => (Except.error e, acc1)
      | (Except.ok _, page1, acc1) => downloadToCBZseqGo openChapter fetchPage cs page1 acc1

/-- The sequential `downloadToCBZ`. -/
def downloadToCBZseq (openChapter : String → Except String (List String))
    (fetchPage : String → String → Except String ByteSeq)
    (chapterIDs : List String) : Except String Unit × List ZipEntry :=
  downloadToCBZseqGo openChapter fetchPage chapterIDs 0 []

/-! ## Planner characterization -/

/-- The flattened (chapter-order, then page-order) sequence of
(chapterID, pageID) pairs a plan covers. -/
def flatPages (pages : String → List String) (chapterIDs : List String) :
    List (String × String) :=
  chapterIDs.flatMap fun c => (pages c).map fun p => (c, p)

/-- Builds the task of an enumerated (index, (chapterID, pageID)) pair. -/
def taskOfEnum (icp : Nat × String × String) : PageTask :=
  { chapterID := icp.2.1, pageID := icp.2.2, index := icp.1 }

/-- The task list the planner produces when every chapter resolves:
the flattened pair sequence enumerated from 0. -/
def plannedTasks (pages : String → List String) (chapterIDs : List String) :
    List PageTask :=
  (flatPages pages chapterIDs).enum.map taskOfEnum

/-- The cumulative effect on the results buffer of the completions in
`order`, each writing `results[t.index] = bytes`. -/
def writeResults (g : PageTask → ByteSeq) (order : List PageTask)
    (buf : List (Option ByteSeq)) : List (Option ByteSeq) :=
  order.foldl (fun b t => b.set t.index (some (g t))) buf

/-- A sequence of `AddPage` calls ((filename, data) in call order). -/
def addPages (w : EPUBWriter) : List (String × ByteSeq) → EPUBWriter
  | [] => w
  | (f, d) :: ps => addPages (w.AddPage f d) ps

/-- The CBZ entries produced for an index-ordered byte sequence:
`0.jpg, 1.jpg, ...` in ascending order, each holding the bytes at its
index. -/
def cbzEntriesOf (bytes : List ByteSeq) : List ZipEntry :=
  bytes.enum.map fun (i, d) => zipCreate s!"{i}.jpg" (EntryData.bin d)

/-- The `AddPage` argument sequence of the EPUB append loop for an
index-ordered byte sequence. -/
def epubPagePairs (bytes : List ByteSeq) : List (String × ByteSeq) :=
  bytes.enum.map fun (i, d) => (s!"{i}.jpg", d)

/-- Decidable equality for `Except`, so that concrete runs can be
checked by `decide`. -/
instance decEqExcept {ε α : Type} [DecidableEq ε] [DecidableEq α] :
    DecidableEq (Except ε α) := fun x y =>
  match x, y with
  | Except.error e, Except.error f =>
    if h : e = f then isTrue (by rw [h]) else isFalse (by intro hc; injection hc; exact h (by assumption))
  | Except.error _, Except.ok _ => isFalse (fun hc => Except.noConfusion hc)
  | Except.ok _, Except.error _ => isFalse (fun hc => Except.noConfusion hc)
  | Except.ok a, Except.ok b =>
    if h : a = b then isTrue (by rw [h]) else isFalse (by intro hc; injection hc; exact h (by assumption))

/-- Example page-locator table: chapter `A` has two pages, chapter `B`
three. -/
def pagesEx : String → List String :=
  fun c => if c = "A" then ["p1", "p2"] else if c = "B" then ["q1", "q2", "q3"] else []

/-- Example chapter resolution that always succeeds. -/
def openChapterEx : String → Except String (List String) :=
  fun c => Except.ok (pagesEx c)

/-- Example worker session opening that always succeeds. -/
def openSessionEx : String → Except String Unit := fun _ => Except.ok ()

/-- Chapter+page-derived byte marker for a task. -/
def gEx : PageTask → ByteSeq := fun t => (t.chapterID ++ t.pageID).data.map Char.toNat

/-- Example fetcher returning the chapter+page byte marker. -/
def fetchEx : String → String → Except String ByteSeq :=
  fun c p => Except.ok ((c ++ p).data.map Char.toNat)

/-- Example fetcher failing on chapter `B` page `q2` only. -/
def fetchFailEx : String → String → Except String ByteSeq :=
  fun c p =>
    if c = "B" ∧ p = "q2" then Except.error "boom"
    else Except.ok ((c ++ p).data.map Char.toNat)

/-- A completion order distinct from the task order: the reversed task
list. -/
def orderEx : List PageTask := (plannedTasks pagesEx ["A", "B"]).reverse

theorem appendPageTasks_eq (ch : String) (ps : List String) (acc : List PageTask) :
    appendPageTasks ch ps acc
      = acc ++ (List.enumFrom acc.length (ps.map fun p => (ch, p))).map taskOfEnum := by
  induction ps generalizing acc with
  | nil => simp [appendPageTasks]
  | cons p ps ih =>
    rw [appendPageTasks, ih]
    simp [List.enumFrom_cons, List.append_assoc, taskOfEnum]

theorem planTasksGo_ok (openChapter : String → Except String (List String))
    (pages : String → List String) (cs : List String) (acc : List PageTask)
    (h : ∀ c ∈ cs, openChapter c = Except.ok (pages c)) :
    planTasksGo openChapter cs acc
      = Except.ok (acc ++ (List.enumFrom acc.length (flatPages pages cs)).map taskOfEnum) := by
  induction cs generalizing acc with
  | nil => simp [planTasksGo, flatPages]
  | cons c cs ih =>
    have hc := h c (List.mem_cons_self c cs)
    have ih' := ih (appendPageTasks c (pages c) acc)
      (fun c' hc' => h c' (List.mem_cons_of_mem c hc'))
    rw [planTasksGo, hc]
    dsimp only
    rw [ih', appendPageTasks_eq]
    simp [flatPages, List.flatMap_cons, List.enumFrom_append, List.append_assoc,
          List.length_append, List.length_map, List.enumFrom_length]

theorem planTasks_ok (openChapter : String → Except String (List String))
    (pages : String → List String) (cs : List String)
    (h : ∀ c ∈ cs, openChapter c = Except.ok (pages c)) :
    planTasks openChapter cs = Except.ok (plannedTasks pages cs) := by
  rw [planTasks, planTasksGo_ok openChapter pages cs [] h]
  simp [plannedTasks, List.enum]

theorem planTasksGo_error (openChapter : String → Except String (List String))
    (cs₁ : List String) (c : String) (cs₂ : List String) (e : String)
    (h1 : ∀ c' ∈ cs₁, ∃ ps, openChapter c' = Except.ok ps)
    (h2 : openChapter c = Except.error e) (acc : List PageTask) :
    planTasksGo openChapter (cs₁ ++ c :: cs₂) acc = Except.error e := by
  induction cs₁ generalizing acc with
  | nil => simp [planTasksGo, h2]
  | cons c' cs₁ ih =>
    obtain ⟨ps, hps⟩ := h1 c' (List.mem_cons_self c' cs₁)
    rw [List.cons_append, planTasksGo, hps]
    exact ih (fun x hx => h1 x (List.mem_cons_of_mem c' hx)) _

theorem plannedTasks_length (pages : String → List String) (cs : List String) :
    (plannedTasks pages cs).length = (cs.map fun c => (pages c).length).sum := by
  simp [plannedTasks, flatPages, List.length_flatMap, Function.comp_def]

theorem plannedTasks_map_index (pages : String → List String) (cs : List String) :
    (plannedTasks pages cs).map PageTask.index
      = List.range (plannedTasks pages cs).length := by
  have h1 : PageTask.index ∘ taskOfEnum = Prod.fst := rfl
  simp [plannedTasks, List.map_map, h1, List.enum_map_fst]

theorem plannedTasks_getElem_index (pages : String → List String) (cs : List String)
    (i : Nat) (h : i < (plannedTasks pages cs).length) :
    (plannedTasks pages cs)[i].index = i := by
  have hlen : i < (flatPages pages cs).enum.length := by
    simpa [plannedTasks] using h
  have hlen' : i < (flatPages pages cs).length := by
    simpa using hlen
  simp [plannedTasks, List.getElem_map, List.getElem_enum, taskOfEnum]

/-! ## Worker-pool characterization

The buffer writes of a run in which every attempted task succeeds: each
completion stores its bytes at its own `index` slot.  Because the
planner gives tasks pairwise distinct indices, the final buffer is the
same for every completion order. -/

theorem runPoolGo_ok (attempt : PageTask → Except String ByteSeq)
    (g : PageTask → ByteSeq) (order : List PageTask) (buf : List (Option ByteSeq))
    (h : ∀ t ∈ order, attempt t = Except.ok (g t)) :
    runPoolGo attempt order buf = Except.ok (writeResults g order buf) := by
  induction order generalizing buf with
  | nil => simp [runPoolGo, writeResults]
  | cons t ts ih =>
    rw [runPoolGo, h t (List.mem_cons_self t ts)]
    dsimp only
    rw [ih _ (fun u hu => h u (List.mem_cons_of_mem t hu))]
    simp [writeResults]

theorem length_writeResults (g : PageTask → ByteSeq) (order : List PageTask)
    (buf : List (Option ByteSeq)) :
    (writeResults g order buf).length = buf.length := by
  induction order generalizing buf with
  | nil => simp [writeResults]
  | cons t ts ih =>
    rw [writeResults, List.foldl_cons]
    have := ih (buf.set t.index (some (g t)))
    rw [writeResults] at this
    rw [this, List.length_set]

theorem writeResults_getElem?_not_mem (g : PageTask → ByteSeq) (order : List PageTask)
    (buf : List (Option ByteSeq)) (j : Nat) (hj : j ∉ order.map PageTask.index) :
    (writeResults g order buf)[j]? = buf[j]? := by
  induction order generalizing buf with
  | nil => simp [writeResults]
  | cons t ts ih =>
    rw [writeResults, List.foldl_cons]
    have hne : t.index ≠ j := by
      intro hcontra
      exact hj (by simp [hcontra.symm])
    have hrest : j ∉ ts.map PageTask.index := by
      intro hcontra
      exact hj (by simp at hcontra ⊢; exact Or.inr hcontra)
    have := ih (buf.set t.index (some (g t))) hrest
    rw [writeResults] at this
    rw [this, List.getElem?_set_ne hne]

theorem writeResults_getElem?_mem (g : PageTask → ByteSeq) (order : List PageTask)
    (buf : List (Option ByteSeq)) (t : PageTask)
    (hnd : (order.map PageTask.index).Nodup) (hmem : t ∈ order)
    (hlt : t.index < buf.length) :
    (writeResults g order buf)[t.index]? = some (some (g t)) := by
  induction order generalizing buf with
  | nil => cases hmem
  | cons u ts ih =>
    rw [writeResults, List.foldl_cons]
    rw [List.map_cons, List.nodup_cons] at hnd
    rcases List.mem_cons.mp hmem with heq | hmem'
    · subst heq
      have h1 : t.index ∉ ts.map PageTask.index := hnd.1
      have := writeResults_getElem?_not_mem g ts (buf.set t.index (some (g t))) t.index h1
      rw [writeResults] at this
      rw [this, List.getElem?_set_self hlt]
    · have := ih (buf.set u.index (some (g u))) hnd.2 hmem'
      rw [writeResults] at this
      exact this (by simpa [List.length_set] using hlt)

theorem runPool_ok_perm (attempt : PageTask → Except String ByteSeq)
    (g : PageTask → ByteSeq) (tasks order : List PageTask)
    (hperm : order.Perm tasks)
    (hidx : tasks.map PageTask.index = List.range tasks.length)
    (hok : ∀ t ∈ order, attempt t = Except.ok (g t)) :
    runPool attempt order tasks.length = Except.ok (tasks.map fun t => some (g t)) := by
  rw [runPool, runPoolGo_ok attempt g order _ hok]
  congr 1
  have hnd : (order.map PageTask.index).Nodup := by
    refine (List.Perm.nodup_iff (List.Perm.map PageTask.index hperm)).mpr ?_
    rw [hidx]
    exact List.nodup_range tasks.length
  apply List.ext_getElem?
  intro n
  by_cases hn : n < tasks.length
  · have hn' : n < (List.map PageTask.index tasks).length := by simpa using hn
    have hidx_n : tasks[n].index = n := by
      have h1 : (List.map PageTask.index tasks)[n] = tasks[n].index :=
        List.getElem_map PageTask.index
      have h2 : (List.map PageTask.index tasks)[n] = n := by
        rw [List.getElem_of_eq hidx hn']
        exact List.getElem_range n _
      exact h1.symm.trans h2
    have hmem : tasks[n] ∈ order :=
      (List.Perm.mem_iff hperm).mpr (List.getElem_mem hn)
    have hlt : tasks[n].index < (List.replicate tasks.length (none : Option ByteSeq)).length := by
      simp [hidx_n, hn]
    have hval := writeResults_getElem?_mem g order
      (List.replicate tasks.length none) tasks[n] hnd hmem hlt
    rw [hidx_n] at hval
    rw [hval, List.getElem?_map, List.getElem?_eq_getElem hn]
    rfl
  · have h1 : (writeResults g order (List.replicate tasks.length none)).length ≤ n := by
      rw [length_writeResults]
      simpa using Nat.le_of_not_lt hn
    have h2 : (tasks.map fun t => some (g t)).length ≤ n := by
      simpa using Nat.le_of_not_lt hn
    rw [List.getElem?_eq_none h1, List.getElem?_eq_none h2]

theorem runPoolGo_error (attempt : PageTask → Except String ByteSeq)
    (pre : List PageTask) (t : PageTask) (post : List PageTask) (e : String)
    (hpre : ∀ u ∈ pre, ∃ d, attempt u = Except.ok d)
    (ht : attempt t = Except.error e) (buf : List (Option ByteSeq)) :
    runPoolGo attempt (pre ++ t :: post) buf = Except.error e := by
  induction pre generalizing buf with
  | nil => simp [runPoolGo, ht]
  | cons u us ih =>
    obtain ⟨d, hd⟩ := hpre u (List.mem_cons_self u us)
    rw [List.cons_append, runPoolGo, hd]
    dsimp only
    exact ih (fun v hv => hpre v (List.mem_cons_of_mem u hv)) _

/-! ## EPUB writer state after a sequence of `AddPage` calls -/

theorem addPages_title (w : EPUBWriter) (ps : List (String × ByteSeq)) :
    (addPages w ps).title = w.title := by
  induction ps generalizing w with
  | nil => rfl
  | cons p ps ih =>
    obtain ⟨f, d⟩ := p
    rw [addPages, ih]
    rfl

theorem addPages_pageCount (w : EPUBWriter) (ps : List (String × ByteSeq)) :
    (addPages w ps).pageCount = w.pageCount + ps.length := by
  induction ps generalizing w with
  | nil => rfl
  | cons p ps ih =>
    obtain ⟨f, d⟩ := p
    rw [addPages, ih]
    simp [EPUBWriter.AddPage]
    omega

theorem addPages_pages (w : EPUBWriter) (ps : List (String × ByteSeq)) :
    (addPages w ps).pages
      = w.pages ++ (List.range' (w.pageCount + 1) ps.length).map (fun n => s!"page{n}.xhtml") := by
  induction ps generalizing w with
  | nil => simp [addPages]
  | cons p ps ih =>
    obtain ⟨f, d⟩ := p
    rw [addPages, ih]
    simp [EPUBWriter.AddPage, List.range'_succ, List.append_assoc]

theorem addPages_images (w : EPUBWriter) (ps : List (String × ByteSeq)) :
    (addPages w ps).images = w.images ++ ps.map Prod.fst := by
  induction ps generalizing w with
  | nil => simp [addPages]
  | cons p ps ih =>
    obtain ⟨f, d⟩ := p
    rw [addPages, ih]
    simp [EPUBWriter.AddPage]

/-- Reindexing the navigation loop: enumerating the pages
`page(k+1).xhtml, page(k+2).xhtml, ...` from position `k` and applying
a 1-based builder `F (i+1) pages[i]` visits exactly the page numbers
`k+1, k+2, ...`. -/
theorem navPoints_range' (g : Nat → String) (N k : Nat) :
    (List.enumFrom k ((List.range' (k + 1) N).map g)).map
        (fun ip => navPointString (ip.1 + 1) ip.2)
      = (List.range' (k + 1) N).map (fun n => navPointString n (g n)) := by
  induction N generalizing k with
  | zero => rfl
  | succ N ih =>
    rw [List.range'_succ]
    simp only [List.map_cons, List.enumFrom_cons]
    rw [ih (k + 1)]

theorem addPages_eq_foldl (w : EPUBWriter) (ps : List (String × ByteSeq)) :
    addPages w ps = ps.foldl (fun w p => w.AddPage p.1 p.2) w := by
  induction ps generalizing w with
  | nil => rfl
  | cons p ps ih =>
    obtain ⟨f, d⟩ := p
    rw [addPages, ih, List.foldl_cons]

/-! ## Pipeline characterization -/

theorem cbzAppendLoop_map_some (bytes : List ByteSeq) :
    cbzAppendLoop (bytes.map some) = cbzEntriesOf bytes := by
  rw [cbzAppendLoop, cbzEntriesOf, List.enum_map, List.map_map]
  rfl

theorem epubAppendLoop_map_some (w : EPUBWriter) (bytes : List ByteSeq) :
    epubAppendLoop w (bytes.map some) = addPages w (epubPagePairs bytes) := by
  rw [epubAppendLoop, addPages_eq_foldl, epubPagePairs, List.enum_map, List.foldl_map,
      List.foldl_map]
  rfl

theorem downloadToCBZ_success (openChapter : String → Except String (List String))
    (openSession : String → Except String Unit)
    (fetchPage : String → String → Except String ByteSeq)
    (pages : String → List String) (g : PageTask → ByteSeq)
    (chapterIDs : List String) (order : List PageTask)
    (hopen : ∀ c ∈ chapterIDs, openChapter c = Except.ok (pages c))
    (hperm : order.Perm (plannedTasks pages chapterIDs))
    (hatt : ∀ t ∈ order, taskAttempt openSession fetchPage t = Except.ok (g t)) :
    downloadToCBZ openChapter openSession fetchPage chapterIDs order
      = (Except.ok (), cbzEntriesOf ((plannedTasks pages chapterIDs).map g)) := by
  rw [downloadToCBZ, planTasks_ok openChapter pages chapterIDs hopen]
  dsimp only
  by_cases h0 : (plannedTasks pages chapterIDs).length = 0
  · rw [if_pos h0]
    have he : plannedTasks pages chapterIDs = [] := List.length_eq_zero.mp h0
    simp [he, cbzEntriesOf]
  · rw [if_neg h0,
        runPool_ok_perm _ g _ order hperm (plannedTasks_map_index pages chapterIDs) hatt]
    dsimp only
    have hms : (plannedTasks pages chapterIDs).map (fun t => some (g t))
        = ((plannedTasks pages chapterIDs).map g).map some := by
      simp [List.map_map]
    rw [hms, cbzAppendLoop_map_some]

theorem downloadToEPUB_success (title today : String)
    (openChapter : String → Except String (List String))
    (openSession : String → Except String Unit)
    (fetchPage : String → String → Except String ByteSeq)
    (pages : String → List String) (g : PageTask → ByteSeq)
    (chapterIDs : List String) (order : List PageTask)
    (hopen : ∀ c ∈ chapterIDs, openChapter c = Except.ok (pages c))
    (hperm : order.Perm (plannedTasks pages chapterIDs))
    (hatt : ∀ t ∈ order, taskAttempt openSession fetchPage t = Except.ok (g t)) :
    downloadToEPUB title today openChapter openSession fetchPage chapterIDs order
      = (Except.ok (),
         (addPages (NewEPUBWriter title)
           (epubPagePairs ((plannedTasks pages chapterIDs).map g))).Close today) := by
  rw [downloadToEPUB, planTasks_ok openChapter pages chapterIDs hopen]
  dsimp only
  by_cases h0 : (plannedTasks pages chapterIDs).length = 0
  · rw [if_pos h0]
    have he : plannedTasks pages chapterIDs = [] := List.length_eq_zero.mp h0
    simp [he, epubPagePairs, addPages]
  · rw [if_neg h0,
        runPool_ok_perm _ g _ order hperm (plannedTasks_map_index pages chapterIDs) hatt]
    dsimp only
    have hms : (plannedTasks pages chapterIDs).map (fun t => some (g t))
        = ((plannedTasks pages chapterIDs).map g).map some := by
      simp [List.map_map]
    rw [hms, epubAppendLoop_map_some]

theorem downloadToCBZ_pool_error (openChapter : String → Except String (List String))
    (openSession : String → Except String Unit)
    (fetchPage : String → String → Except String ByteSeq)
    (pages : String → List String) (chapterIDs : List String)
    (pre : List PageTask) (t : PageTask) (post : List PageTask) (e : String)
    (hopen : ∀ c ∈ chapterIDs, openChapter c = Except.ok (pages c))
    (hperm : (pre ++ t :: post).Perm (plannedTasks pages chapterIDs))
    (hpre : ∀ u ∈ pre, ∃ d, taskAttempt openSession fetchPage u = Except.ok d)
    (ht : taskAttempt openSession fetchPage t = Except.error e) :
    downloadToCBZ openChapter openSession fetchPage chapterIDs (pre ++ t :: post)
      = (Except.error e, []) := by
  rw [downloadToCBZ, planTasks_ok openChapter pages chapterIDs hopen]
  dsimp only
  have h0 : (plannedTasks pages chapterIDs).length ≠ 0 := by
    rw [← hperm.length_eq]
    simp
  rw [if_neg h0, runPool,
      runPoolGo_error (taskAttempt openSession fetchPage) pre t post e hpre ht]

theorem downloadToEPUB_pool_error (title today : String)
    (openChapter : String → Except String (List String))
    (openSession : String → Except String Unit)
    (fetchPage : String → String → Except String ByteSeq)
    (pages : String → List String) (chapterIDs : List String)
    (pre : List PageTask) (t : PageTask) (post : List PageTask) (e : String)
    (hopen : ∀ c ∈ chapterIDs, openChapter c = Except.ok (pages c))
    (hperm : (pre ++ t :: post).Perm (plannedTasks pages chapterIDs))
    (hpre : ∀ u ∈ pre, ∃ d, taskAttempt openSession fetchPage u = Except.ok d)
    (ht : taskAttempt openSession fetchPage t = Except.error e) :
    downloadToEPUB title today openChapter openSession fetchPage chapterIDs (pre ++ t :: post)
      = (Except.error e, (NewEPUBWriter title).Close today) := by
  rw [downloadToEPUB, planTasks_ok openChapter pages chapterIDs hopen]
  dsimp only
  have h0 : (plannedTasks pages chapterIDs).length ≠ 0 := by
    rw [← hperm.length_eq]
    simp
  rw [if_neg h0, runPool,
      runPoolGo_error (taskAttempt openSession fetchPage) pre t post e hpre ht]

/-! ## Claim theorems -/

theorem noSuchImage_ne_noSuchURL (src : String) :
    "no such image" ≠ "no such url: " ++ src := by
  intro h
  have hd : ("no such image").data = ("no such url: ").data ++ src.data := by
    rw [h, String.data_append]
  have hd' : ("no such image").data ++ ([] : List Char)
      = ("no such url: ").data ++ src.data := by
    rw [List.append_nil]
    exact hd
  have hinj := List.append_inj hd' (by decide)
  exact absurd hinj.1 (by decide)

/-- C8: within one page fetch, an absent `src` attribute on the image
element and a present `src` with no recorded network exchange produce
the two distinct errors `"no such image"` and `"no such url: " + src`
— never the same error. -/
theorem pageFetch_distinct_failures
    (urlMap : List (String × String)) (unescape : String → Option String)
    (getBody : String → Except String ByteSeq) (src : String)
    (hmiss : urlMap.lookup src = none)
    (hmiss' : ∀ u, unescape src = some u → urlMap.lookup u = none) :
    DownloadPageTo urlMap unescape getBody none = Except.error "no such image"
    ∧ DownloadPageTo urlMap unescape getBody (some src)
        = Except.error ("no such url: " ++ src)
    ∧ "no such image" ≠ "no such url: " ++ src := by
  refine ⟨rfl, ?_, noSuchImage_ne_noSuchURL src⟩
  rw [DownloadPageTo]
  cases hu : unescape src with
  | none => simp [findRequestID, hmiss, hu]
  | some u => simp [findRequestID, hmiss, hu, hmiss' u hu]

theorem pageFetch_distinct_failures_witness :
    DownloadPageTo [("u1", "r1")] some (fun _ => Except.ok [0]) none
      = Except.error "no such image"
    ∧ DownloadPageTo [("u1", "r1")] some (fun _ => Except.ok [0]) (some "u2")
      = Except.error ("no such url: " ++ "u2")
    ∧ "no such image" ≠ "no such url: " ++ "u2" :=
  pageFetch_distinct_failures [("u1", "r1")] some (fun _ => Except.ok [0]) "u2"
    (by decide) (fun u hu => by cases hu; decide)

/-- C10: `workerCount` is always positive; it returns the parsed value
of `COMICSD_WORKERS` exactly when Go's `strconv.Atoi` accepts it with a
positive value, and the default 4 in every other case (unset/empty
variable, non-numeric text, zero, negative, out of `int64` range). -/
theorem workerCount_spec (env : String) :
    0 < workerCount env
    ∧ (∀ n : Int, atoi env = some n → 0 < n → workerCount env = n)
    ∧ ((∀ n : Int, atoi env = some n → n ≤ 0) → workerCount env = 4) := by
  by_cases henv : env = ""
  · subst henv
    refine ⟨by decide, ?_, fun _ => by decide⟩
    intro n hn
    simp [atoi] at hn
  · cases hA : atoi env with
    | none =>
      refine ⟨?_, ?_, ?_⟩
      · simp [workerCount, henv, hA]
      · intro n hn
        cases hn
      · intro _
        simp [workerCount, henv, hA]
    | some n =>
      by_cases hn : 0 < n
      · refine ⟨?_, ?_, ?_⟩
        · have : workerCount env = n := by simp [workerCount, henv, hA, hn]
          rw [this]
          exact hn
        · intro m hm hmpos
          cases hm
          simp [workerCount, henv, hA, hn]
        · intro hall
          exact absurd hn (not_lt.mpr (hall n rfl))
      · refine ⟨?_, ?_, ?_⟩
        · simp [workerCount, henv, hA, hn]
        · intro m hm hmpos
          cases hm
          exact absurd hmpos hn
        · intro _
          simp [workerCount, henv, hA, hn]

theorem workerCount_spec_witness :
    (0 < workerCount "7" ∧ workerCount "7" = 7)
    ∧ workerCount "" = 4 ∧ workerCount "0" = 4 ∧ workerCount "-2" = 4
    ∧ workerCount "abc" = 4 := by
  refine ⟨⟨(workerCount_spec "7").1, (workerCount_spec "7").2.1 7 (by decide) (by decide)⟩,
          (workerCount_spec "").2.2 ?_, (workerCount_spec "0").2.2 ?_,
          (workerCount_spec "-2").2.2 ?_, (workerCount_spec "abc").2.2 ?_⟩
  · intro n hn
    simp [atoi] at hn
  · intro n hn
    rw [show atoi "0" = some 0 from by decide] at hn
    cases hn
    decide
  · intro n hn
    rw [show atoi "-2" = some (-2) from by decide] at hn
    cases hn
    decide
  · intro n hn
    rw [show atoi "abc" = none from by decide] at hn
    cases hn

/-- C3 (the code refutes the claimed layout): after a single `AddPage`,
the finalized archive's first entry is the page image — `mimetype` is
written only third, at `Close` time, after all page entries — and the
`mimetype` entry (like every entry, even in a pageless archive) is
deflate-compressed, never stored; only its content matches the claim's
literal. -/
theorem epub_mimetype_neither_first_nor_stored :
    ((((NewEPUBWriter "T").AddPage "0.jpg" [7]).Close "2025-01-01").map ZipEntry.name
      = ["OEBPS/images/0.jpg", "OEBPS/page1.xhtml", "mimetype",
         "META-INF/container.xml", "OEBPS/content.opf", "OEBPS/toc.ncx"])
    ∧ (∀ ent ∈ ((NewEPUBWriter "T").AddPage "0.jpg" [7]).Close "2025-01-01",
        ent.name = "mimetype" →
          ent.method = ZipMethod.deflate ∧ ent.data = EntryData.txt "application/epub+zip")
    ∧ ((NewEPUBWriter "T").Close "2025-01-01").map ZipEntry.method
      = [ZipMethod.deflate, ZipMethod.deflate, ZipMethod.deflate, ZipMethod.deflate] := by
  refine ⟨by decide, by decide, by decide⟩

/-- C4 counterexample: a `.png` page (and any unrecognized extension)
is accepted by `AddPage` without an error and its manifest line carries
`media-type="image/jpeg"`. -/
theorem epub_extension_ignored_cex :
    manifestImageItem 0 "a.png"
      = "        <item id=\"img1\" href=\"images/a.png\" media-type=\"image/jpeg\"/>\n"
    ∧ manifestImageItem 0 "a.weird"
      = "        <item id=\"img1\" href=\"images/a.weird\" media-type=\"image/jpeg\"/>\n"
    ∧ ((NewEPUBWriter "T").AddPage "a.weird" [7]).images = ["a.weird"]
    ∧ ((NewEPUBWriter "T").AddPage "a.weird" [7]).pageCount = 1 := by
  refine ⟨by decide, by decide, by decide, by decide⟩

/-- C4 amended: the manifest media-type is not derived from the
filename's extension — every image manifest line carries the literal
`image/jpeg`, whatever the filename (`.jpg`, `.png` or unrecognized) —
and the encoder performs no extension validation: `AddPage` accepts and
records every filename without an error return. -/
theorem epub_media_type_always_jpeg (t : String) (ps : List (String × ByteSeq))
    (i : Nat) (filename : String) (w : EPUBWriter) (d : ByteSeq) :
    manifestImageItem i filename
      = s!"        <item id=\"img{i + 1}\" href=\"images/{filename}\" media-type=\"image/jpeg\"/>\n"
    ∧ (w.AddPage filename d).images = w.images ++ [filename]
    ∧ (addPages (NewEPUBWriter t) ps).images = ps.map Prod.fst := by
  refine ⟨rfl, by simp [EPUBWriter.AddPage], ?_⟩
  have h := addPages_images (NewEPUBWriter t) ps
  simpa [NewEPUBWriter] using h

/-- C7: after any sequence of `AddPage` calls (N pages) the accumulated
navigation pages are `page1.xhtml ... pageN.xhtml` in append order; the
`navMap` consists of exactly the navPoints numbered (id, playOrder,
label) 1..N with no gaps, the n-th pointing at wrapper `page{n}.xhtml`;
and `Close` writes the navigation document rendering these entries as
the archive's final entry. -/
theorem ncx_playorder_sequential (title today : String) (ps : List (String × ByteSeq)) :
    (addPages (NewEPUBWriter title) ps).pages
      = (List.range' 1 ps.length).map (fun n => s!"page{n}.xhtml")
    ∧ navPoints ((addPages (NewEPUBWriter title) ps).pages)
      = String.join ((List.range' 1 ps.length).map (fun n => navPointString n s!"page{n}.xhtml"))
    ∧ ((addPages (NewEPUBWriter title) ps).Close today).getLast?
      = some (zipCreate "OEBPS/toc.ncx" (EntryData.txt
          (ncxContent title ps.length ((addPages (NewEPUBWriter title) ps).pages)))) := by
  have hpages : (addPages (NewEPUBWriter title) ps).pages
      = (List.range' 1 ps.length).map (fun n => s!"page{n}.xhtml") := by
    have h := addPages_pages (NewEPUBWriter title) ps
    simpa [NewEPUBWriter] using h
  refine ⟨hpages, ?_, ?_⟩
  · rw [hpages, navPoints]
    exact congrArg String.join (navPoints_range' (fun n => s!"page{n}.xhtml") ps.length 0)
  · rw [EPUBWriter.Close, List.getLast?_append]
    simp [addPages_pageCount, addPages_title, NewEPUBWriter]

/-- C5: when every chapter resolves, the planner yields exactly the
flattened chapter-then-page task list — Σpᵢ tasks with `index` values
0..Σpᵢ-1 in order; when a chapter fails to resolve, the planner
returns that error with no partial task list, and the job returns the
error with an empty archive for every session/fetch oracle and every
schedule (no fetch is started). -/
theorem planner_spec (openChapter : String → Except String (List String))
    (pages : String → List String) (chapterIDs : List String) :
    ((∀ c ∈ chapterIDs, openChapter c = Except.ok (pages c)) →
      planTasks openChapter chapterIDs = Except.ok (plannedTasks pages chapterIDs)
      ∧ (plannedTasks pages chapterIDs).length = (chapterIDs.map fun c => (pages c).length).sum
      ∧ (plannedTasks pages chapterIDs).map PageTask.index
          = List.range (plannedTasks pages chapterIDs).length)
    ∧ (∀ pre c post e, chapterIDs = pre ++ c :: post →
        (∀ c' ∈ pre, ∃ ps, openChapter c' = Except.ok ps) →
        openChapter c = Except.error e →
        planTasks openChapter chapterIDs = Except.error e
        ∧ ∀ openSession fetchPage order,
            downloadToCBZ openChapter openSession fetchPage chapterIDs order
              = (Except.error e, [])) := by
  constructor
  · intro hok
    exact ⟨planTasks_ok openChapter pages chapterIDs hok,
           plannedTasks_length pages chapterIDs,
           plannedTasks_map_index pages chapterIDs⟩
  · intro pre c post e hsplit hpre hc
    have herr : planTasks openChapter chapterIDs = Except.error e := by
      rw [hsplit, planTasks]
      exact planTasksGo_error openChapter pre c post e hpre hc []
    refine ⟨herr, fun openSession fetchPage order => ?_⟩
    rw [downloadToCBZ, herr]

theorem cbzEntriesOf_names (bytes : List ByteSeq) :
    (cbzEntriesOf bytes).map ZipEntry.name
      = (List.range bytes.length).map (fun i => s!"{i}.jpg") := by
  rw [cbzEntriesOf, List.map_map, ← List.enum_map_fst bytes, List.map_map]
  rfl

theorem flatPages_of_empty (cs : List String) : flatPages (fun _ => []) cs = [] := by
  induction cs with
  | nil => rfl
  | cons c cs ih =>
    rw [flatPages, List.flatMap_cons]
    rw [flatPages] at ih
    simp [ih]

theorem plannedTasks_of_empty (cs : List String) : plannedTasks (fun _ => []) cs = [] := by
  rw [plannedTasks, flatPages_of_empty]
  rfl

theorem cbzSeqPages_ok (fetchPage : String → String → Except String ByteSeq)
    (ch : String) (g' : String → ByteSeq) (ps : List String) (page : Nat)
    (acc : List ZipEntry) (h : ∀ p ∈ ps, fetchPage ch p = Except.ok (g' p)) :
    cbzSeqPages fetchPage ch ps page acc
      = (Except.ok (), page + ps.length,
         acc ++ (List.enumFrom page ps).map
           fun np => zipCreate s!"{np.1}.jpg" (EntryData.bin (g' np.2))) := by
  induction ps generalizing page acc with
  | nil => simp [cbzSeqPages]
  | cons p ps ih =>
    rw [cbzSeqPages, h p (List.mem_cons_self p ps)]
    dsimp only
    rw [ih (page + 1) _ (fun q hq => h q (List.mem_cons_of_mem p hq))]
    simp [List.enumFrom_cons, List.append_assoc, Prod.ext_iff]
    omega

theorem cbzSeqPages_error (fetchPage : String → String → Except String ByteSeq)
    (ch : String) (g' : String → ByteSeq) (pre : List String) (pfail : String)
    (post : List String) (e : String) (page : Nat) (acc : List ZipEntry)
    (hpre : ∀ p ∈ pre, fetchPage ch p = Except.ok (g' p))
    (hf : fetchPage ch pfail = Except.error e) :
    cbzSeqPages fetchPage ch (pre ++ pfail :: post) page acc
      = (Except.error e, page + pre.length,
         acc ++ ((List.enumFrom page pre).map
             fun np => zipCreate s!"{np.1}.jpg" (EntryData.bin (g' np.2)))
           ++ [zipCreate s!"{page + pre.length}.jpg" (EntryData.bin [])]) := by
  induction pre generalizing page acc with
  | nil =>
    rw [List.nil_append, cbzSeqPages, hf]
    simp
  | cons p pre ih =>
    rw [List.cons_append, cbzSeqPages, hpre p (List.mem_cons_self p pre)]
    dsimp only
    rw [ih (page + 1) _ (fun q hq => hpre q (List.mem_cons_of_mem p hq))]
    have harith : page + 1 + pre.length = page + (pre.length + 1) := by omega
    simp [List.enumFrom_cons, List.append_assoc, harith]

theorem downloadToCBZseq_error (openChapter : String → Except String (List String))
    (fetchPage : String → String → Except String ByteSeq) (c : String)
    (g' : String → ByteSeq) (pre : List String) (pfail : String) (post : List String)
    (e : String) (hopen : openChapter c = Except.ok (pre ++ pfail :: post))
    (hpre : ∀ p ∈ pre, fetchPage c p = Except.ok (g' p))
    (hf : fetchPage c pfail = Except.error e) :
    downloadToCBZseq openChapter fetchPage [c]
      = (Except.error e,
         ((List.enumFrom 0 pre).map
             fun np => zipCreate s!"{np.1}.jpg" (EntryData.bin (g' np.2)))
           ++ [zipCreate s!"{pre.length}.jpg" (EntryData.bin [])]) := by
  rw [downloadToCBZseq, downloadToCBZseqGo, hopen]
  dsimp only
  rw [cbzSeqPages_error fetchPage c g' pre pfail post e 0 [] hpre hf]
  simp

theorem planner_spec_witness :
    planTasks openChapterEx ["A", "B"] = Except.ok (plannedTasks pagesEx ["A", "B"])
    ∧ plannedTasks pagesEx ["A", "B"]
      = [{ chapterID := "A", pageID := "p1", index := 0 },
         { chapterID := "A", pageID := "p2", index := 1 },
         { chapterID := "B", pageID := "q1", index := 2 },
         { chapterID := "B", pageID := "q2", index := 3 },
         { chapterID := "B", pageID := "q3", index := 4 }]
    ∧ planTasks (fun c => if c = "B" then Except.error "resolve failed"
          else openChapterEx c) ["A", "B"] = Except.error "resolve failed" := by
  have h := (planner_spec openChapterEx pagesEx ["A", "B"]).1 (fun c _ => rfl)
  have h2 := (planner_spec (fun c => if c = "B" then Except.error "resolve failed"
      else openChapterEx c) pagesEx ["A", "B"]).2 ["A"] "B" [] "resolve failed" rfl
    (fun c' hc' => by
      have : c' = "A" := by simpa using hc'
      subst this
      exact ⟨pagesEx "A", by decide⟩)
    (by decide)
  exact ⟨h.1, by decide, h2.1⟩

/-- C1: for every planned task list and every completion order — a run
with any worker count ≥ 1 completes tasks in some permutation of the
list, and the theorem quantifies over all permutations — each task's
fetched bytes are placed at slot `task.index` of the pre-sized results
buffer, the pool returns the buffer in task-list index order, and the
append loops after the pool joins hand both encoders exactly that
index-ordered byte sequence. -/
theorem pool_order_determinism (title today : String)
    (openChapter : String → Except String (List String))
    (openSession : String → Except String Unit)
    (fetchPage : String → String → Except String ByteSeq)
    (pages : String → List String) (g : PageTask → ByteSeq)
    (chapterIDs : List String) (order : List PageTask)
    (hopen : ∀ c ∈ chapterIDs, openChapter c = Except.ok (pages c))
    (hperm : order.Perm (plannedTasks pages chapterIDs))
    (hatt : ∀ t ∈ order, taskAttempt openSession fetchPage t = Except.ok (g t)) :
    runPool (taskAttempt openSession fetchPage) order (plannedTasks pages chapterIDs).length
      = Except.ok ((plannedTasks pages chapterIDs).map fun t => some (g t))
    ∧ (∀ t ∈ plannedTasks pages chapterIDs,
        ((plannedTasks pages chapterIDs).map fun u => some (g u))[t.index]?
          = some (some (g t)))
    ∧ downloadToCBZ openChapter openSession fetchPage chapterIDs order
        = (Except.ok (), cbzEntriesOf ((plannedTasks pages chapterIDs).map g))
    ∧ downloadToEPUB title today openChapter openSession fetchPage chapterIDs order
        = (Except.ok (), (addPages (NewEPUBWriter title)
            (epubPagePairs ((plannedTasks pages chapterIDs).map g))).Close today) := by
  refine ⟨runPool_ok_perm _ g _ order hperm (plannedTasks_map_index pages chapterIDs) hatt,
          ?_,
          downloadToCBZ_success openChapter openSession fetchPage pages g chapterIDs order
            hopen hperm hatt,
          downloadToEPUB_success title today openChapter openSession fetchPage pages g
            chapterIDs order hopen hperm hatt⟩
  intro t ht
  obtain ⟨n, hn, hEq⟩ := List.mem_iff_getElem.mp ht
  have hidx : t.index = n := by
    rw [← hEq]
    exact plannedTasks_getElem_index pages chapterIDs n hn
  rw [hidx, List.getElem?_map, List.getElem?_eq_getElem hn, hEq]
  rfl

theorem pool_order_determinism_witness :
    runPool (taskAttempt openSessionEx fetchEx) orderEx (plannedTasks pagesEx ["A", "B"]).length
      = Except.ok ((plannedTasks pagesEx ["A", "B"]).map fun t => some (gEx t))
    ∧ downloadToCBZ openChapterEx openSessionEx fetchEx ["A", "B"] orderEx
      = (Except.ok (), cbzEntriesOf ((plannedTasks pagesEx ["A", "B"]).map gEx)) := by
  have h := pool_order_determinism "T" "D" openChapterEx openSessionEx fetchEx pagesEx gEx
    ["A", "B"] orderEx (fun c _ => rfl) (List.reverse_perm _) (by decide)
  exact ⟨h.1, h.2.2.1⟩

/-- C6: every successful run finalizes a CBZ whose entries are exactly
`0.jpg, 1.jpg, ..., k.jpg`, created in that ascending order, the i-th
holding the fetched bytes of the task with global index i; no other
(manifest) entry exists. -/
theorem cbz_entries_ascending (openChapter : String → Except String (List String))
    (openSession : String → Except String Unit)
    (fetchPage : String → String → Except String ByteSeq)
    (pages : String → List String) (g : PageTask → ByteSeq)
    (chapterIDs : List String) (order : List PageTask)
    (hopen : ∀ c ∈ chapterIDs, openChapter c = Except.ok (pages c))
    (hperm : order.Perm (plannedTasks pages chapterIDs))
    (hatt : ∀ t ∈ order, taskAttempt openSession fetchPage t = Except.ok (g t)) :
    downloadToCBZ openChapter openSession fetchPage chapterIDs order
      = (Except.ok (), cbzEntriesOf ((plannedTasks pages chapterIDs).map g))
    ∧ (cbzEntriesOf ((plannedTasks pages chapterIDs).map g)).map ZipEntry.name
      = (List.range (plannedTasks pages chapterIDs).length).map (fun i => s!"{i}.jpg")
    ∧ (∀ (i : Nat) (t : PageTask), (plannedTasks pages chapterIDs)[i]? = some t →
        (cbzEntriesOf ((plannedTasks pages chapterIDs).map g))[i]?
          = some (zipCreate s!"{i}.jpg" (EntryData.bin (g t)))) := by
  refine ⟨downloadToCBZ_success openChapter openSession fetchPage pages g chapterIDs order
            hopen hperm hatt, ?_, ?_⟩
  · rw [cbzEntriesOf_names]
    simp
  · intro i t ht
    obtain ⟨hi, hEq⟩ := List.getElem?_eq_some.mp ht
    rw [cbzEntriesOf, List.getElem?_map, List.getElem?_enum, List.getElem?_map,
        List.getElem?_eq_getElem hi, hEq]
    rfl

theorem cbz_entries_ascending_witness :
    downloadToCBZ openChapterEx openSessionEx fetchEx ["A", "B"] orderEx
      = (Except.ok (), cbzEntriesOf ((plannedTasks pagesEx ["A", "B"]).map gEx))
    ∧ (cbzEntriesOf ((plannedTasks pagesEx ["A", "B"]).map gEx)).map ZipEntry.name
      = ["0.jpg", "1.jpg", "2.jpg", "3.jpg", "4.jpg"] := by
  have h := cbz_entries_ascending openChapterEx openSessionEx fetchEx pagesEx gEx
    ["A", "B"] orderEx (fun c _ => rfl) (List.reverse_perm _) (by decide)
  refine ⟨h.1, ?_⟩
  rw [h.2.1]
  decide

/-- C9: when every chapter resolves to zero pages the flattened task
list is empty, both jobs return success without consulting the session
or fetch oracles or any schedule (all universally quantified and
unused), the CBZ archive is empty, and the EPUB archive consists of the
four structural entries only — zero page entries. -/
theorem empty_tasklist_success (title today : String)
    (openChapter : String → Except String (List String))
    (openSession : String → Except String Unit)
    (fetchPage : String → String → Except String ByteSeq)
    (chapterIDs : List String) (order : List PageTask)
    (hopen : ∀ c ∈ chapterIDs, openChapter c = Except.ok []) :
    downloadToCBZ openChapter openSession fetchPage chapterIDs order = (Except.ok (), [])
    ∧ downloadToEPUB title today openChapter openSession fetchPage chapterIDs order
      = (Except.ok (), (NewEPUBWriter title).Close today)
    ∧ ((NewEPUBWriter title).Close today).map ZipEntry.name
      = ["mimetype", "META-INF/container.xml", "OEBPS/content.opf", "OEBPS/toc.ncx"] := by
  have hplan : planTasks openChapter chapterIDs = Except.ok [] := by
    have h := planTasks_ok openChapter (fun _ => []) chapterIDs (fun c hc => hopen c hc)
    rwa [plannedTasks_of_empty] at h
  refine ⟨?_, ?_, rfl⟩
  · rw [downloadToCBZ, hplan]
    rfl
  · rw [downloadToEPUB, hplan]
    rfl

theorem empty_tasklist_success_witness :
    downloadToCBZ (fun _ => Except.ok []) openSessionEx fetchEx ["A", "B"] []
      = (Except.ok (), [])
    ∧ downloadToEPUB "T" "D" (fun _ => Except.ok []) openSessionEx fetchEx ["A", "B"] []
      = (Except.ok (), (NewEPUBWriter "T").Close "D") :=
  ⟨(empty_tasklist_success "T" "D" (fun _ => Except.ok []) openSessionEx fetchEx
      ["A", "B"] [] (fun _ _ => rfl)).1,
   (empty_tasklist_success "T" "D" (fun _ => Except.ok []) openSessionEx fetchEx
      ["A", "B"] [] (fun _ _ => rfl)).2.1⟩

/-- C2 counterexample: a run whose fourth task fails does return the
single error, but the finalized output is not empty — the deferred
EPUB finalize still writes its four structural entries, and the
sequential CBZ variant keeps the page entries written before the
failure (plus an empty entry for the failing page). -/
theorem failure_leaves_entries_cex :
    (downloadToEPUB "T" "D" openChapterEx openSessionEx fetchFailEx ["A", "B"]
        (plannedTasks pagesEx ["A", "B"])).1 = Except.error "boom"
    ∧ (downloadToEPUB "T" "D" openChapterEx openSessionEx fetchFailEx ["A", "B"]
        (plannedTasks pagesEx ["A", "B"])).2 ≠ []
    ∧ (downloadToEPUB "T" "D" openChapterEx openSessionEx fetchFailEx ["A", "B"]
        (plannedTasks pagesEx ["A", "B"])).2.length = 4
    ∧ (downloadToCBZseq openChapterEx fetchFailEx ["A", "B"]).1 = Except.error "boom"
    ∧ (downloadToCBZseq openChapterEx fetchFailEx ["A", "B"]).2.map ZipEntry.name
      = ["0.jpg", "1.jpg", "2.jpg", "3.jpg"] := by
  refine ⟨by decide, by decide, by decide, by decide, by decide⟩

/-- C2 amended: when a task fails mid-run the concurrent job returns
exactly one error — the first observed; errors of later completions
(the unconstrained `post` tasks) are dropped — and the index-ordered
append loop never runs: the CBZ archive is finalized with zero entries,
while the deferred EPUB finalize still writes exactly the four
structural entries (mimetype, container, package document, navigation
document) and zero page entries; the sequential CBZ variant instead
keeps the page entries created before the failure plus an empty entry
for the failing page. -/
theorem first_error_no_page_entries (title today : String)
    (openChapter : String → Except String (List String))
    (openSession : String → Except String Unit)
    (fetchPage : String → String → Except String ByteSeq)
    (pages : String → List String) (chapterIDs : List String)
    (pre : List PageTask) (t : PageTask) (post : List PageTask) (e : String)
    (hopen : ∀ c ∈ chapterIDs, openChapter c = Except.ok (pages c))
    (hperm : (pre ++ t :: post).Perm (plannedTasks pages chapterIDs))
    (hpre : ∀ u ∈ pre, ∃ d, taskAttempt openSession fetchPage u = Except.ok d)
    (ht : taskAttempt openSession fetchPage t = Except.error e) :
    downloadToCBZ openChapter openSession fetchPage chapterIDs (pre ++ t :: post)
      = (Except.error e, [])
    ∧ downloadToEPUB title today openChapter openSession fetchPage chapterIDs
        (pre ++ t :: post)
      = (Except.error e, (NewEPUBWriter title).Close today)
    ∧ ((NewEPUBWriter title).Close today).map ZipEntry.name
      = ["mimetype", "META-INF/container.xml", "OEBPS/content.opf", "OEBPS/toc.ncx"]
    ∧ (∀ (openChapterSeq : String → Except String (List String))
         (fetchPageSeq : String → String → Except String ByteSeq)
         (c : String) (g' : String → ByteSeq) (ps : List String) (pfail : String)
         (postPages : List String) (e' : String),
        openChapterSeq c = Except.ok (ps ++ pfail :: postPages) →
        (∀ p ∈ ps, fetchPageSeq c p = Except.ok (g' p)) →
        fetchPageSeq c pfail = Except.error e' →
        downloadToCBZseq openChapterSeq fetchPageSeq [c]
          = (Except.error e',
             ((List.enumFrom 0 ps).map
                 fun np => zipCreate s!"{np.1}.jpg" (EntryData.bin (g' np.2)))
               ++ [zipCreate s!"{ps.length}.jpg" (EntryData.bin [])])) := by
  refine ⟨downloadToCBZ_pool_error openChapter openSession fetchPage pages chapterIDs
            pre t post e hopen hperm hpre ht,
          downloadToEPUB_pool_error title today openChapter openSession fetchPage pages
            chapterIDs pre t post e hopen hperm hpre ht,
          rfl, ?_⟩
  intro openChapterSeq fetchPageSeq c g' ps pfail postPages e' hopenSeq hpreSeq hfSeq
  exact downloadToCBZseq_error openChapterSeq fetchPageSeq c g' ps pfail postPages e'
    hopenSeq hpreSeq hfSeq

theorem first_error_no_page_entries_witness :
    downloadToCBZ openChapterEx openSessionEx fetchFailEx ["A", "B"]
        (plannedTasks pagesEx ["A", "B"]) = (Except.error "boom", [])
    ∧ downloadToEPUB "T" "D" openChapterEx openSessionEx fetchFailEx ["A", "B"]
        (plannedTasks pagesEx ["A", "B"])
      = (Except.error "boom", (NewEPUBWriter "T").Close "D")
    ∧ downloadToCBZseq openChapterEx fetchFailEx ["B"]
      = (Except.error "boom",
         [zipCreate "0.jpg" (EntryData.bin (("B" ++ "q1").data.map Char.toNat)),
          zipCreate "1.jpg" (EntryData.bin [])]) := by
  have h := first_error_no_page_entries "T" "D" openChapterEx openSessionEx fetchFailEx
    pagesEx ["A", "B"]
    [{ chapterID := "A", pageID := "p1", index := 0 },
     { chapterID := "A", pageID := "p2", index := 1 },
     { chapterID := "B", pageID := "q1", index := 2 }]
    { chapterID := "B", pageID := "q2", index := 3 }
    [{ chapterID := "B", pageID := "q3", index := 4 }]
    "boom" (fun c _ => rfl) (by decide)
    (by
      intro u hu
      refine ⟨gEx u, ?_⟩
      fin_cases hu <;> decide)
    (by decide)
  have hseq := h.2.2.2 openChapterEx fetchFailEx "B"
    (fun p => ("B" ++ p).data.map Char.toNat) ["q1"] "q2" ["q3"] "boom"
    (by decide) (by decide) (by decide)
  have hlist : (plannedTasks pagesEx ["A", "B"])
      = [{ chapterID := "A", pageID := "p1", index := 0 },
         { chapterID := "A", pageID := "p2", index := 1 },
         { chapterID := "B", pageID := "q1", index := 2 }]
        ++ { chapterID := "B", pageID := "q2", index := 3 }
          :: [{ chapterID := "B", pageID := "q3", index := 4 }] := by decide
  refine ⟨?_, ?_, ?_⟩
  · rw [hlist]
    exact h.1
  · rw [hlist]
    exact h.2.1
  · rw [hseq]
    decide
